import Mathlib

/-!
Verification development for `matdata.py`: a loader for MATLAB `.mat` files
that dispatches between a legacy (scipy) reader and a hierarchical (h5py)
reader, normalizes the hierarchical tree into plain values, and wraps the
result in a small facade object.

The embedding below translates the source file function by function:

* `PyVal` models the normalized Python values the loader produces
  (numpy scalars, numpy arrays with a shape and a dtype-kind flag,
  Python lists and Python dicts).
* `PyErr` models the Python exceptions the loader raises or wraps.
* `datasetToVal` / `matToDict` model the nested `_mat_to_dict` of
  `load_h5py` (transpose, squeeze, scalar collapse, group recursion).
* `simplify` models the nested `_simplify` (object-kind arrays become
  lists by iterating the array, i.e. over its first axis; dicts are
  simplified value-wise).
* `load_h5py_tree` / `load_h5py` / `load_scipy` model the two adapters;
  the scipy reader itself is external and is a black-box field of
  `MatFile`, as is the h5py open step.
* `MatData.init`, `MatData.get`, `MatData.get_keys` model the facade.

Python's `set` iteration order (used by `load_h5py`'s variable-name
filter) is unspecified; it is modelled by an explicit parameter
`setIter` constrained, where a theorem needs it, to be a permutation.
-/

namespace Matdata

/-- A normalized Python value: a scalar, a numpy array (dtype kind
`'O'` is `objKind = true`, flat row-major data paired with a shape),
a Python list, or a Python dict in insertion order. -/
inductive PyVal where
  | scalar (x : Int)
  | arr (objKind : Bool) (shape : List Nat) (xs : List PyVal)
  | pyList (l : List PyVal)
  | pyDict (d : List (String × PyVal))

/-- A Python exception value as the loader distinguishes them.
`exception msg cause` is a generic `Exception` carrying `str(e)` and,
for `raise ... from e`, the original cause. `FileNotFoundError` is a
subclass of `OSError` in Python (see `isOSError`). -/
inductive PyErr where
  | osError (msg : String)
  | fileNotFoundError (msg : String)
  | typeError (msg : String)
  | keyError (msg : String)
  | exception (msg : String) (cause : Option PyErr)

/-- Python's `str(e)`: the message of the exception. -/
def errStr : PyErr → String
  | .osError m => m
  | .fileNotFoundError m => m
  | .typeError m => m
  | .keyError m => m
  | .exception m _ => m

/-- Whether `except OSError` catches this exception: `OSError` itself and
its subclass `FileNotFoundError`. -/
def isOSError : PyErr → Bool
  | .osError _ => true
  | .fileNotFoundError _ => true
  | _ => false

/-- Dictionary lookup, `d[k]` / `k in d`, on a dict in insertion order
(keys are unique in a Python dict; the first match decides). -/
def dictLookup (k : String) : List (String × PyVal) → Option PyVal
  | [] => none
  | p :: d => if p.1 = k then some p.2 else dictLookup k d

/-- Weight of a shape, used only for termination of `simplify`. -/
def shW : List Nat → Nat
  | [] => 0
  | d :: t => d + 2 + shW t

mutual

/-- Size measure on `PyVal`, used only for termination of `simplify`. -/
def pvSize : PyVal → Nat
  | .scalar _ => 1
  | .arr _ shape xs => shW shape + 2 + pvSizeL xs
  | .pyList l => 1 + pvSizeL l
  | .pyDict d => 1 + pvSizeD d

/-- Size measure on lists of `PyVal`. -/
def pvSizeL : List PyVal → Nat
  | [] => 0
  | x :: xs => 1 + pvSize x + pvSizeL xs

/-- Size measure on dicts of `PyVal`. -/
def pvSizeD : List (String × PyVal) → Nat
  | [] => 0
  | p :: d => 1 + pvSize p.2 + pvSizeD d

end

theorem pvSizeL_take_le (n : Nat) (xs : List PyVal) :
    pvSizeL (xs.take n) ≤ pvSizeL xs := by
  induction xs generalizing n with
  | nil => simp [List.take_nil]
  | cons x xs ih =>
      cases n with
      | zero => simp only [List.take_zero, pvSizeL]; omega
      | succ m => simp only [List.take_succ_cons, pvSizeL]; have := ih m; omega

theorem pvSizeL_drop_le (n : Nat) (xs : List PyVal) :
    pvSizeL (xs.drop n) ≤ pvSizeL xs := by
  induction xs generalizing n with
  | nil => simp [List.drop_nil]
  | cons x xs ih =>
      cases n with
      | zero => simp only [List.drop_zero]; omega
      | succ m => simp only [List.drop_succ_cons, pvSizeL]; have := ih m; omega

mutual

/-- The inner `_simplify` of `load_h5py`: an ndarray whose dtype kind is
`'O'` becomes the list of its items, each simplified (Python iterates an
ndarray over its first axis: a 1-D array yields its elements, a
multi-dimensional array yields its sub-arrays, which are again
object-kind arrays); a dict is simplified value-wise; every other value
passes through unchanged.  Iterating a 0-d ndarray raises `TypeError`
in numpy; that case is unreachable from `_mat_to_dict` output (0-d
arrays were collapsed by `.item()`), and is modelled as the empty
iteration. -/
def simplify : PyVal → PyVal
  | .scalar x => .scalar x
  | .pyList l => .pyList l
  | .pyDict d => .pyDict (simplifyPairs d)
  | .arr false shape xs => .arr false shape xs
  | .arr true [] _ => .pyList []
  | .arr true [_] xs => .pyList (simplifyList xs)
  | .arr true (n :: r :: rest) xs => .pyList (simplifyRows n (r :: rest) xs)
termination_by v => pvSize v
decreasing_by
  all_goals (try simp only [pvSize, pvSizeL, pvSizeD, shW])
  all_goals omega

/-- `[_simplify(item) for item in value]` for a 1-D object array: the
items are the stored elements themselves. -/
def simplifyList : List PyVal → List PyVal
  | [] => []
  | x :: xs => simplify x :: simplifyList xs
termination_by xs => pvSizeL xs
decreasing_by
  all_goals (try simp only [pvSize, pvSizeL, pvSizeD, shW])
  all_goals omega

/-- `[_simplify(item) for item in value]` for an array of more than one
dimension: item `i` is the sub-array `value[i]`, the `i`-th chunk of
`rest.prod` consecutive flat elements with shape `rest`, itself an
object-kind ndarray. -/
def simplifyRows : Nat → List Nat → List PyVal → List PyVal
  | 0, _, _ => []
  | n + 1, rest, xs =>
      simplify (.arr true rest (xs.take rest.prod)) ::
        simplifyRows n rest (xs.drop rest.prod)
termination_by n rest xs => n + shW rest + 3 + pvSizeL xs
decreasing_by
  all_goals (try simp only [pvSize, pvSizeL, pvSizeD, shW])
  · have h1 := pvSizeL_take_le rest.prod xs; omega
  · have h2 := pvSizeL_drop_le rest.prod xs; omega

/-- `{k: _simplify(v) for k, v in value.items()}`. -/
def simplifyPairs : List (String × PyVal) → List (String × PyVal)
  | [] => []
  | p :: d => (p.1, simplify p.2) :: simplifyPairs d
termination_by d => pvSizeD d
decreasing_by
  all_goals (try simp only [pvSize, pvSizeL, pvSizeD, shW])
  all_goals omega

end

/-- A node of the hierarchical (HDF5) tree as h5py hands it to
`_mat_to_dict`: a dataset (whose `mat_obj[()]` materialization is a flat
row-major list of elements together with a shape and the dtype-kind
flag), a group of named children in store iteration order, or any other
h5py object (`h5py.Datatype`, say), whose Python type name is kept for
the error message. -/
inductive H5Obj where
  | dataset (objKind : Bool) (shape : List Nat) (xs : List PyVal)
  | group (items : List (String × H5Obj))
  | other (typeName : String)

/-- Row-major flat index of a multi-index `idx` in an array of shape
`sh` (`idx` and `sh` of equal length). -/
def flatIdx : List Nat → List Nat → Nat
  | _ :: ds, i :: is => i * ds.prod + flatIdx ds is
  | _, _ => 0

/-- Row-major multi-index of flat position `j` in an array of shape `sh`. -/
def multiIdx : List Nat → Nat → List Nat
  | [], _ => []
  | _ :: ds, j => j / ds.prod :: multiIdx ds (j % ds.prod)

/-- `data.T` on flat row-major data: the transposed array has shape
`shape.reverse`, and its element at multi-index `m` is the source
element at multi-index `m.reverse`. -/
def transposeFlat (shape : List Nat) (xs : List PyVal) : List PyVal :=
  (List.range shape.reverse.prod).map fun j =>
    xs.getD (flatIdx shape ((multiIdx shape.reverse j).reverse)) (.scalar 0)

/-- The dataset branch of `_mat_to_dict`: materialize (`mat_obj[()]`),
transpose when `ndim > 1`, squeeze away size-1 dimensions when
`squeeze_me`, and collapse a 0-dimensional result to its bare element
(`data.item()`; a well-formed 0-d array holds exactly one element, so
the `headD` default is never used on real data). -/
def datasetToVal (squeeze_me objKind : Bool) (shape : List Nat) (xs : List PyVal) : PyVal :=
  let p1 : List Nat × List PyVal :=
    if 1 < shape.length then (shape.reverse, transposeFlat shape xs) else (shape, xs)
  let p2 : List Nat × List PyVal :=
    if squeeze_me then (p1.1.filter (fun d => d ≠ 1), p1.2) else p1
  if p2.1 = [] then p2.2.headD (.scalar 0) else .arr objKind p2.1 p2.2

mutual

/-- The inner `_mat_to_dict` of `load_h5py`: datasets through
`datasetToVal`, groups to dicts of recursively converted children,
anything else raises `TypeError`. -/
def matToDict (squeeze_me : Bool) : H5Obj → Except PyErr PyVal
  | .dataset objKind shape xs => .ok (datasetToVal squeeze_me objKind shape xs)
  | .group items => do
      let d ← groupToDict squeeze_me items
      .ok (.pyDict d)
  | .other t => .error (.typeError ("Unsupported MATLAB object type: " ++ t))

/-- `{key: _mat_to_dict(mat_obj[key]) for key in mat_obj.keys()}`:
children in store iteration order; the first failing child's exception
propagates. -/
def groupToDict (squeeze_me : Bool) : List (String × H5Obj) → Except PyErr (List (String × PyVal))
  | [] => .ok []
  | p :: rest => do
      let v ← matToDict squeeze_me p.2
      let vs ← groupToDict squeeze_me rest
      .ok ((p.1, v) :: vs)

end

/-- An open h5py file: its top-level items in store iteration order. -/
structure H5File where
  items : List (String × H5Obj)

/-- The body of `load_h5py` once the file is open: convert every
top-level entry, optionally simplify (the dict branch of `_simplify`
applied to the whole mapping), and, when `variable_names` is truthy (a
non-empty sequence), keep only the keys in
`set(data.keys()) & set(variable_names)` — a Python set, iterated in the
unspecified order `setIter`. -/
def load_h5py_tree (setIter : List String → List String) (mat : H5File)
    (variable_names : Option (List String)) (squeeze_me simplify_cells : Bool) :
    Except PyErr (List (String × PyVal)) := do
  let data ← groupToDict squeeze_me mat.items
  let data := if simplify_cells then simplifyPairs data else data
  match variable_names with
  | some (n :: ns) =>
      let vars := setIter ((data.map Prod.fst).filter fun k => (n :: ns).contains k)
      -- every var comes from the intersection, so `data[var]` is present
      -- and the `getD` default is never used
      .ok (vars.map fun v => (v, (dictLookup v data).getD (.scalar 0)))
  | _ => .ok data

/-- A `.mat` file "as the outside world sees it": its path, whether it
exists on disk, what `h5py.File(path, 'r')` yields (an error when the
file is not an HDF5 container), and what the external
`scipy.io.loadmat` returns for given variable names and flags (a black
box, per the spec). -/
structure MatFile where
  path : String
  found : Bool
  h5open : Except PyErr H5File
  loadmat : Option (List String) → Bool → Bool → Except PyErr (List (String × PyVal))

/-- Python's default arguments of `load_scipy` and `load_h5py`:
`squeeze_me=True`. -/
def squeezeMeDefault : Bool := true

/-- Python's default arguments of `load_scipy` and `load_h5py`:
`simplify_cells=True`. -/
def simplifyCellsDefault : Bool := true

/-- `load_scipy`: a typed pass-through to the external reader. -/
def load_scipy (f : MatFile) (variable_names : Option (List String))
    (squeeze_me simplify_cells : Bool) : Except PyErr (List (String × PyVal)) :=
  f.loadmat variable_names squeeze_me simplify_cells

/-- `load_h5py`: open the file read-only (errors from the open — a
non-HDF5 file, typically `OSError` — propagate), then convert under the
scoped handle. -/
def load_h5py (setIter : List String → List String) (f : MatFile)
    (variable_names : Option (List String)) (squeeze_me simplify_cells : Bool) :
    Except PyErr (List (String × PyVal)) :=
  match f.h5open with
  | .error e => .error e
  | .ok mat => load_h5py_tree setIter mat variable_names squeeze_me simplify_cells

/-- The facade object: resolved path and loaded mapping. -/
structure MatData where
  mat_file : String
  data : List (String × PyVal)

/-- Which loader `__init__` picked from a declared version. -/
inductive Loader where
  | scipy
  | h5py

/-- `raise Exception(f"Error loading mat file: {e}") from e`. -/
def wrapLoad (e : PyErr) : PyErr :=
  .exception ("Error loading mat file: " ++ errStr e) (some e)

/-- `MatData.__init__`: existence check first (`FileNotFoundError`),
then dispatch.  The source tests `mat_file.exists()` on the argument
itself (its `PathLike` annotation denotes `Path` arguments, which carry
that method); the outcome is the `found` field.  `if version:` is
Python truthiness, so `version = 0` counts as undeclared.  A declared
version picks one loader (`<= 7.2` scipy, else h5py), whose calls pass
only the path and the variable names, so the flag defaults apply; its
failure is wrapped.  With no declared version, h5py is tried first;
only `OSError` (and subclasses) triggers the scipy fallback, whose
failure is wrapped; any other h5py exception propagates unwrapped. -/
def MatData.init (setIter : List String → List String) (f : MatFile)
    (variable_names : Option (List String)) (version : Option ℚ) :
    Except PyErr MatData :=
  if f.found = false then
    .error (.fileNotFoundError ("File '" ++ f.path ++ "' not found"))
  else
    let load_method : Option Loader :=
      match version with
      | none => none
      | some v => if v = 0 then none else some (if v ≤ 7.2 then .scipy else .h5py)
    match load_method with
    | some m =>
        match (match m with
               | .scipy => load_scipy f variable_names squeezeMeDefault simplifyCellsDefault
               | .h5py => load_h5py setIter f variable_names squeezeMeDefault simplifyCellsDefault) with
        | .ok d => .ok ⟨f.path, d⟩
        | .error e => .error (wrapLoad e)
    | none =>
        match load_h5py setIter f variable_names squeezeMeDefault simplifyCellsDefault with
        | .ok d => .ok ⟨f.path, d⟩
        | .error e =>
            if isOSError e then
              match load_scipy f variable_names squeezeMeDefault simplifyCellsDefault with
              | .ok d => .ok ⟨f.path, d⟩
              | .error e2 => .error (wrapLoad e2)
            else .error e

/-- `MatData.get_file`. -/
def MatData.get_file (m : MatData) : String :=
  m.mat_file

/-- `MatData.get`: `KeyError` naming the variable when absent, the
stored value itself when present. -/
def MatData.get (m : MatData) (var : String) : Except PyErr PyVal :=
  match dictLookup var m.data with
  | none => .error (.keyError ("Variable '" ++ var ++ "' not found in data"))
  | some v => .ok v

/-- `MatData.get_keys`: the mapping's keys in its internal order. -/
def MatData.get_keys (m : MatData) : List String :=
  m.data.map Prod.fst

/-- Observer for statements: the length of a value when it is a Python
list, `none` otherwise. -/
def listLen? : PyVal → Option Nat
  | .pyList l => some l.length
  | _ => none

/-- Claim C10's description of `__init__`: the same dispatch, but with
every adapter invocation passing squeeze and cell-simplification
*explicitly enabled* — the claim's "default enabled settings" that the
two-positional-argument calls in the source pick up, with no facade
parameter to change them. -/
def MatDataInitAllDefaultsOn (setIter : List String → List String) (f : MatFile)
    (variable_names : Option (List String)) (version : Option ℚ) :
    Except PyErr MatData :=
  if f.found = false then
    .error (.fileNotFoundError ("File '" ++ f.path ++ "' not found"))
  else
    let load_method : Option Loader :=
      match version with
      | none => none
      | some v => if v = 0 then none else some (if v ≤ 7.2 then .scipy else .h5py)
    match load_method with
    | some m =>
        match (match m with
               | .scipy => load_scipy f variable_names true true
               | .h5py => load_h5py setIter f variable_names true true) with
        | .ok d => .ok ⟨f.path, d⟩
        | .error e => .error (wrapLoad e)
    | none =>
        match load_h5py setIter f variable_names true true with
        | .ok d => .ok ⟨f.path, d⟩
        | .error e =>
            if isOSError e then
              match load_scipy f variable_names true true with
              | .ok d => .ok ⟨f.path, d⟩
              | .error e2 => .error (wrapLoad e2)
            else .error e

/-- Shape of a value `_mat_to_dict` (squeeze on) can hand to the
simplification pass: a bare scalar, an array whose shape survived the
squeeze (no size-1 dimension, non-empty), or a dict (from a group). -/
def TopGood (v : PyVal) : Prop :=
  (∃ c : Int, v = .scalar c) ∨
  (∃ kk sh ys, v = .arr kk sh ys ∧ 1 ∉ sh ∧ sh ≠ []) ∨
  (∃ dd, v = .pyDict dd)

/-- Well-formedness of a hierarchical file at top level: dataset
elements are materialized leaf values (numbers / references), modelled
as scalars. -/
def topDatasetsScalar (mat : H5File) : Prop :=
  ∀ p ∈ mat.items, ∀ kk sh xs, p.2 = H5Obj.dataset kk sh xs →
    ∀ x ∈ xs, ∃ c : Int, x = .scalar c

/-! ### General lemmas about the embedding -/

theorem simplifyPairs_eq_map (d : List (String × PyVal)) :
    simplifyPairs d = d.map fun p => (p.1, simplify p.2) := by
  induction d with
  | nil => simp [simplifyPairs]
  | cons p d ih => simp [simplifyPairs, ih]

theorem simplifyList_eq_map (xs : List PyVal) :
    simplifyList xs = xs.map simplify := by
  induction xs with
  | nil => simp [simplifyList]
  | cons x xs ih => simp [simplifyList, ih]

theorem simplifyPairs_map_fst (d : List (String × PyVal)) :
    (simplifyPairs d).map Prod.fst = d.map Prod.fst := by
  simp [simplifyPairs_eq_map]

theorem map_fst_pairing {α β : Type} (g : α → β) (l : List α) :
    (l.map fun v => (v, g v)).map Prod.fst = l := by
  induction l with
  | nil => simp
  | cons a t ih => simp [ih]

theorem simplifyRows_length (n : Nat) (rest : List Nat) (xs : List PyVal) :
    (simplifyRows n rest xs).length = n := by
  induction n generalizing xs with
  | zero => simp [simplifyRows]
  | succ m ih => simp [simplifyRows, ih]

theorem groupToDict_ok_map_fst (sq : Bool) (items : List (String × H5Obj))
    (ds : List (String × PyVal)) (h : groupToDict sq items = .ok ds) :
    ds.map Prod.fst = items.map Prod.fst := by
  induction items generalizing ds with
  | nil =>
      simp only [groupToDict] at h
      cases h
      simp
  | cons p rest ih =>
      simp only [groupToDict, bind, Except.bind] at h
      cases hv : matToDict sq p.2 with
      | error e => rw [hv] at h; cases h
      | ok v =>
          rw [hv] at h
          cases hr : groupToDict sq rest with
          | error e => rw [hr] at h; cases h
          | ok vs =>
              rw [hr] at h
              cases h
              simp [ih vs hr]

theorem getD_zero_eq_headD (xs : List PyVal) (d : PyVal) :
    xs.getD 0 d = xs.headD d := by
  cases xs <;> rfl

theorem multiIdx_zero (sh : List Nat) :
    multiIdx sh 0 = List.replicate sh.length 0 := by
  induction sh with
  | nil => simp [multiIdx]
  | cons d ds ih => simp [multiIdx, ih, List.replicate_succ]

theorem flatIdx_replicate_zero (sh : List Nat) :
    flatIdx sh (List.replicate sh.length 0) = 0 := by
  induction sh with
  | nil => simp [flatIdx]
  | cons d ds ih => simp [List.replicate_succ, flatIdx, ih]

theorem prod_eq_one_of_ones (sh : List Nat) (h : ∀ d ∈ sh, d = 1) :
    sh.prod = 1 := by
  induction sh with
  | nil => simp
  | cons d ds ih =>
      have hd : d = 1 := h d (by simp)
      have := ih fun x hx => h x (by simp [hx])
      simp [hd, this]

theorem transposeFlat_ones (sh : List Nat) (xs : List PyVal) (h : ∀ d ∈ sh, d = 1) :
    transposeFlat sh xs = [xs.headD (.scalar 0)] := by
  have hrev : ∀ d ∈ sh.reverse, d = 1 := fun d hd => h d (List.mem_reverse.mp hd)
  have hp : sh.reverse.prod = 1 := prod_eq_one_of_ones _ hrev
  have hidx : flatIdx sh ((multiIdx sh.reverse 0).reverse) = 0 := by
    rw [multiIdx_zero, List.reverse_replicate, List.length_reverse,
      flatIdx_replicate_zero]
  simp [transposeFlat, hp, List.range_succ, hidx]
  cases xs <;> simp

theorem load_h5py_tree_none (setIter : List String → List String) (mat : H5File)
    (sq sc : Bool) (ds : List (String × PyVal))
    (h : groupToDict sq mat.items = .ok ds) :
    load_h5py_tree setIter mat none sq sc = .ok (if sc then simplifyPairs ds else ds) := by
  simp [load_h5py_tree, bind, Except.bind, h]

theorem load_h5py_tree_some_nil (setIter : List String → List String) (mat : H5File)
    (sq sc : Bool) (ds : List (String × PyVal))
    (h : groupToDict sq mat.items = .ok ds) :
    load_h5py_tree setIter mat (some []) sq sc = .ok (if sc then simplifyPairs ds else ds) := by
  simp [load_h5py_tree, bind, Except.bind, h]

theorem load_h5py_tree_some (setIter : List String → List String) (mat : H5File)
    (sq sc : Bool) (ds : List (String × PyVal)) (n : String) (ns : List String)
    (h : groupToDict sq mat.items = .ok ds) :
    load_h5py_tree setIter mat (some (n :: ns)) sq sc =
      .ok ((setIter (((if sc then simplifyPairs ds else ds).map Prod.fst).filter
              fun k => (n :: ns).contains k)).map
            fun v => (v, (dictLookup v (if sc then simplifyPairs ds else ds)).getD (.scalar 0))) := by
  cases sc <;> simp [load_h5py_tree, bind, Except.bind, h]

theorem load_h5py_tree_ok_inv (setIter : List String → List String) (mat : H5File)
    (vn : Option (List String)) (sq sc : Bool) (d : List (String × PyVal))
    (h : load_h5py_tree setIter mat vn sq sc = .ok d) :
    ∃ ds, groupToDict sq mat.items = .ok ds := by
  cases heq : groupToDict sq mat.items with
  | ok ds => exact ⟨ds, rfl⟩
  | error e => simp [load_h5py_tree, bind, Except.bind, heq] at h

theorem getD_mem_or_default (xs : List PyVal) (i : Nat) (d : PyVal) :
    xs.getD i d ∈ xs ∨ xs.getD i d = d := by
  induction xs generalizing i with
  | nil => right; rfl
  | cons x t ih =>
      cases i with
      | zero => left; simp
      | succ j =>
          rcases ih j with hm | hd
          · left; simp only [List.getD_cons_succ]; exact List.mem_cons_of_mem x hm
          · right; simpa using hd

theorem headD_mem_or_default (xs : List PyVal) (d : PyVal) :
    xs.headD d ∈ xs ∨ xs.headD d = d := by
  cases xs with
  | nil => right; rfl
  | cons x t => left; simp

theorem transposeFlat_scalars (sh : List Nat) (xs : List PyVal)
    (h : ∀ x ∈ xs, ∃ c : Int, x = .scalar c) :
    ∀ x ∈ transposeFlat sh xs, ∃ c : Int, x = .scalar c := by
  intro x hx
  simp only [transposeFlat, List.mem_map] at hx
  obtain ⟨j, _, rfl⟩ := hx
  rcases getD_mem_or_default xs (flatIdx sh ((multiIdx sh.reverse j).reverse)) (.scalar 0)
    with hm | hd
  · exact h _ hm
  · exact ⟨0, hd⟩

theorem datasetToVal_true_eq (kk : Bool) (sh : List Nat) (xs : List PyVal) :
    datasetToVal true kk sh xs =
      (if (if 1 < sh.length then sh.reverse else sh).filter (fun d => d ≠ 1) = []
       then (if 1 < sh.length then transposeFlat sh xs else xs).headD (.scalar 0)
       else .arr kk ((if 1 < sh.length then sh.reverse else sh).filter (fun d => d ≠ 1))
              (if 1 < sh.length then transposeFlat sh xs else xs)) := by
  by_cases hlen : 1 < sh.length <;> simp [datasetToVal, hlen]

theorem matToDict_top_good (obj : H5Obj) (v : PyVal)
    (hel : ∀ kk sh xs, obj = H5Obj.dataset kk sh xs → ∀ x ∈ xs, ∃ c : Int, x = .scalar c)
    (h : matToDict true obj = .ok v) : TopGood v := by
  cases obj with
  | dataset kk sh xs =>
      have hx : ∀ x ∈ xs, ∃ c : Int, x = .scalar c := hel kk sh xs rfl
      have hv : datasetToVal true kk sh xs = v := by
        simpa [matToDict] using h
      rw [← hv, datasetToVal_true_eq]
      by_cases hf : (if 1 < sh.length then sh.reverse else sh).filter (fun d => d ≠ 1) = []
      · rw [if_pos hf]
        left
        have hdata : ∀ x ∈ (if 1 < sh.length then transposeFlat sh xs else xs),
            ∃ c : Int, x = .scalar c := by
          by_cases hlen : 1 < sh.length
          · rw [if_pos hlen]; exact transposeFlat_scalars sh xs hx
          · rw [if_neg hlen]; exact hx
        rcases headD_mem_or_default (if 1 < sh.length then transposeFlat sh xs else xs)
            (.scalar 0) with hm | hd
        · obtain ⟨c, hc⟩ := hdata _ hm
          exact ⟨c, hc⟩
        · exact ⟨0, hd⟩
      · rw [if_neg hf]
        right; left
        refine ⟨kk, _, _, rfl, ?_, hf⟩
        intro hmem
        rw [List.mem_filter] at hmem
        simpa using hmem.2
  | group items =>
      simp only [matToDict, bind, Except.bind] at h
      cases hg : groupToDict true items with
      | error e => rw [hg] at h; cases h
      | ok ds =>
          rw [hg] at h
          cases h
          exact Or.inr (Or.inr ⟨ds, rfl⟩)
  | other t => simp [matToDict] at h

theorem groupToDict_values_good (items : List (String × H5Obj)) (ds : List (String × PyVal))
    (hel : ∀ p ∈ items, ∀ kk sh xs, p.2 = H5Obj.dataset kk sh xs →
        ∀ x ∈ xs, ∃ c : Int, x = .scalar c)
    (h : groupToDict true items = .ok ds) :
    ∀ q ∈ ds, TopGood q.2 := by
  induction items generalizing ds with
  | nil =>
      simp only [groupToDict] at h
      cases h
      simp
  | cons p rest ih =>
      simp only [groupToDict, bind, Except.bind] at h
      cases hv : matToDict true p.2 with
      | error e => rw [hv] at h; cases h
      | ok v =>
          rw [hv] at h
          cases hr : groupToDict true rest with
          | error e => rw [hr] at h; cases h
          | ok vs =>
              rw [hr] at h
              cases h
              intro q hq
              rcases List.mem_cons.mp hq with rfl | hq'
              · exact matToDict_top_good p.2 v (hel p (by simp)) hv
              · exact ih vs (fun r hr' => hel r (by simp [hr'])) hr q hq'

theorem simplify_top_good (v : PyVal) (h : TopGood v) :
    (∀ sh ys, simplify v ≠ .arr true sh ys) ∧
    (∀ kk sh ys, simplify v = .arr kk sh ys → 1 ∉ sh ∧ sh ≠ []) := by
  rcases h with ⟨c, rfl⟩ | ⟨kk, sh, ys, rfl, h1, h2⟩ | ⟨dd, rfl⟩
  · constructor
    · intro sh ys heq
      simp [simplify] at heq
    · intro kk sh ys heq
      simp [simplify] at heq
  · cases kk with
    | true =>
        constructor
        · intro sh' ys' heq
          rcases sh with _ | ⟨n, _ | ⟨r, t⟩⟩ <;> simp [simplify] at heq
        · intro kk' sh' ys' heq
          rcases sh with _ | ⟨n, _ | ⟨r, t⟩⟩ <;> simp [simplify] at heq
    | false =>
        constructor
        · intro sh' ys' heq
          simp [simplify] at heq
        · intro kk' sh' ys' heq
          simp only [simplify, PyVal.arr.injEq] at heq
          obtain ⟨-, hsh, -⟩ := heq
          rw [← hsh]
          exact ⟨h1, h2⟩
  · constructor
    · intro sh ys heq
      simp [simplify] at heq
    · intro kk sh ys heq
      simp [simplify] at heq

theorem dictLookup_mem_values (k : String) (l : List (String × PyVal)) (v : PyVal)
    (h : dictLookup k l = some v) : ∃ q ∈ l, q.2 = v := by
  induction l with
  | nil => simp [dictLookup] at h
  | cons p t ih =>
      simp only [dictLookup] at h
      by_cases hp : p.1 = k
      · rw [if_pos hp] at h
        cases h
        exact ⟨p, by simp, rfl⟩
      · rw [if_neg hp] at h
        obtain ⟨q, hq, hv⟩ := ih h
        exact ⟨q, by simp [hq], hv⟩

/-! ### Claim C3 — transpose and dimension order -/

/-- Claim C3, amended: for a dataset of more than one dimension the
transpose step reverses the dimension order exactly (visible unchanged
in the returned array when squeeze is off); with squeeze enabled — the
adapter's default — the returned shape is that exact reverse with all
size-1 dimensions removed (so only when no stored dimension has size 1
is the returned order the exact reverse).  Arrays of one or zero
dimensions are not transposed. -/
theorem c3_transpose_reverses_dimension_order (k : Bool) (sh : List Nat) (xs : List PyVal) :
    (1 < sh.length →
      datasetToVal false k sh xs = .arr k sh.reverse (transposeFlat sh xs) ∧
      matToDict true (.dataset k sh xs) =
        .ok (if sh.reverse.filter (fun d => d ≠ 1) = []
             then (transposeFlat sh xs).headD (.scalar 0)
             else .arr k (sh.reverse.filter (fun d => d ≠ 1)) (transposeFlat sh xs))) ∧
    (sh.length ≤ 1 →
      matToDict false (.dataset k sh xs) =
        .ok (if sh = [] then xs.headD (.scalar 0) else .arr k sh xs)) := by
  constructor
  · intro h
    have hne : ¬(sh.reverse = []) := by
      intro hh
      rw [List.reverse_eq_nil_iff] at hh
      subst hh
      simp at h
    constructor
    · simp only [datasetToVal, if_pos h, if_neg (by trivial : ¬(False = True))]
      simp [hne]
    · simp only [matToDict, datasetToVal, if_pos h]
      by_cases hf : sh.reverse.filter (fun d => d ≠ 1) = [] <;> simp [hf]
  · intro h
    have hlt : ¬(1 < sh.length) := by omega
    by_cases hsh : sh = []
    · subst hsh
      simp [matToDict, datasetToVal]
    · simp [matToDict, datasetToVal, hlt, hsh]

/-- Claim C3, counterexample: a stored shape (2, 1) dataset under the
adapter's default squeeze comes back with shape (2,), which is not the
exact reverse (1, 2) of the stored order. -/
theorem c3_counterexample :
    matToDict true (.dataset false [2, 1] [.scalar 1, .scalar 2]) =
      .ok (.arr false [2] [.scalar 1, .scalar 2]) ∧
    ([2] : List Nat) ≠ ([2, 1] : List Nat).reverse := by
  constructor
  · rfl
  · decide

/-- Claim C3, witness: a 2x3 dataset with squeeze off comes back with
shape (3, 2) — the exact reverse — and transposed data. -/
theorem c3_witness :
    datasetToVal false false [2, 3]
        [.scalar 1, .scalar 2, .scalar 3, .scalar 4, .scalar 5, .scalar 6] =
      .arr false [3, 2]
        [.scalar 1, .scalar 4, .scalar 2, .scalar 5, .scalar 3, .scalar 6] :=
  (((c3_transpose_reverses_dimension_order false [2, 3]
      [.scalar 1, .scalar 2, .scalar 3, .scalar 4, .scalar 5, .scalar 6]).1
      (by norm_num)).1).trans (by rfl)

/-! ### Claim C4 — zero-dimensional results collapse to bare scalars -/

/-- Claim C4, confirmed: a dataset whose shape after the squeeze step is
empty is returned as its bare element (`.item()`), never wrapped as a
zero-dimension array; in particular a dataset holding one numeric value
comes back as that scalar, and a stored 0-d dataset collapses even with
squeeze off. -/
theorem c4_zero_dim_collapses_to_scalar (k : Bool) (sh : List Nat) (xs : List PyVal)
    (h : (if 1 < sh.length then sh.reverse else sh).filter (fun d => d ≠ 1) = []) :
    matToDict true (.dataset k sh xs) =
      .ok ((if 1 < sh.length then transposeFlat sh xs else xs).headD (.scalar 0)) ∧
    (∀ c : Int, xs = [.scalar c] → matToDict true (.dataset k sh xs) = .ok (.scalar c)) ∧
    (∀ ys : List PyVal, matToDict false (.dataset k [] ys) = .ok (ys.headD (.scalar 0))) := by
  have hones : ∀ d ∈ sh, d = 1 := by
    intro d hd
    by_cases hlen : 1 < sh.length
    · rw [if_pos hlen] at h
      have := List.filter_eq_nil_iff.mp h d (List.mem_reverse.mpr hd)
      simpa using this
    · rw [if_neg hlen] at h
      have := List.filter_eq_nil_iff.mp h d hd
      simpa using this
  have hmain : matToDict true (.dataset k sh xs) =
      .ok ((if 1 < sh.length then transposeFlat sh xs else xs).headD (.scalar 0)) := by
    by_cases hlen : 1 < sh.length
    · rw [if_pos hlen] at h ⊢
      simp only [matToDict, datasetToVal, if_pos hlen, h]
      simp
    · rw [if_neg hlen] at h ⊢
      simp only [matToDict, datasetToVal, if_neg hlen, h]
      simp
  refine ⟨hmain, ?_, ?_⟩
  · intro c hc
    subst hc
    rw [hmain]
    by_cases hlen : 1 < sh.length
    · rw [if_pos hlen, transposeFlat_ones sh _ hones]
      rfl
    · rw [if_neg hlen]
      rfl
  · intro ys
    simp [matToDict, datasetToVal]

/-- Claim C4, witness: a 1x1 scalar dataset squeezes to shape () and is
returned as the bare scalar 5. -/
theorem c4_witness :
    matToDict true (.dataset false [1, 1] [.scalar 5]) = .ok (.scalar 5) :=
  (c4_zero_dim_collapses_to_scalar false [1, 1] [.scalar 5] (by decide)).2.1 5 rfl

/-! ### Claim C5 — simplification of object-kind (cell) arrays -/

/-- Claim C5, amended: simplifying an object-kind array yields an
ordered list whose length is the array's *first-axis* length (for 1-D
arrays that is the total element count, but ndarray iteration walks the
first axis only, so for a multi-dimensional cell array the list is
shorter than the element count and the elements are the recursively
simplified sub-arrays); 1-D object arrays map `simplify` over their
elements; dicts are simplified value-wise preserving keys; every other
value passes through unchanged. -/
theorem c5_simplify_object_arrays (n : Nat) (rest : List Nat) (xs : List PyVal)
    (h : xs.length = (n :: rest).prod) :
    (∃ L, simplify (.arr true (n :: rest) xs) = .pyList L ∧ L.length = n) ∧
    (∀ m : Nat, ∀ ys : List PyVal, simplify (.arr true [m] ys) = .pyList (ys.map simplify)) ∧
    (∀ d, simplify (.pyDict d) = .pyDict (d.map fun p => (p.1, simplify p.2))) ∧
    (∀ x : Int, simplify (.scalar x) = .scalar x) ∧
    (∀ sh ys, simplify (.arr false sh ys) = .arr false sh ys) ∧
    (∀ l, simplify (.pyList l) = .pyList l) := by
  refine ⟨?_, ?_, ?_, ?_, ?_, ?_⟩
  · cases rest with
    | nil =>
        refine ⟨simplifyList xs, by simp [simplify], ?_⟩
        rw [simplifyList_eq_map, List.length_map, h]
        simp
    | cons r t =>
        exact ⟨simplifyRows n (r :: t) xs, by simp [simplify], simplifyRows_length _ _ _⟩
  · intro m ys
    rw [← simplifyList_eq_map]
    simp [simplify]
  · intro d
    rw [← simplifyPairs_eq_map]
    simp [simplify]
  · intro x
    simp [simplify]
  · intro sh ys
    simp [simplify]
  · intro l
    simp [simplify]

/-- Claim C5, counterexample: a 2x3 object-kind array (six elements)
simplifies to a list of length 2 — the two simplified rows — not to a
list of length 6, the array's total element count. -/
theorem c5_counterexample :
    simplify (.arr true [2, 3]
        [.scalar 1, .scalar 2, .scalar 3, .scalar 4, .scalar 5, .scalar 6]) =
      .pyList [.pyList [.scalar 1, .scalar 2, .scalar 3],
               .pyList [.scalar 4, .scalar 5, .scalar 6]] ∧
    listLen? (simplify (.arr true [2, 3]
        [.scalar 1, .scalar 2, .scalar 3, .scalar 4, .scalar 5, .scalar 6])) = some 2 ∧
    some 2 ≠ some (([2, 3] : List Nat).prod) := by
  have he : simplify (.arr true [2, 3]
      [.scalar 1, .scalar 2, .scalar 3, .scalar 4, .scalar 5, .scalar 6]) =
      .pyList [.pyList [.scalar 1, .scalar 2, .scalar 3],
               .pyList [.scalar 4, .scalar 5, .scalar 6]] := by
    simp [simplify, simplifyRows, simplifyList]
  refine ⟨he, by rw [he]; rfl, by decide⟩

/-- Claim C5, witness: a 1-D two-element object array simplifies to a
list of its two simplified elements. -/
theorem c5_witness :
    ∃ L, simplify (.arr true [2] [.scalar 7, .scalar 8]) = .pyList L ∧ L.length = 2 :=
  (c5_simplify_object_arrays 2 [] [.scalar 7, .scalar 8] (by decide)).1

/-! ### Claim C6 — variable-name filtering -/

/-- Claim C6, confirmed: when the conversion itself succeeds, filtering
by any non-empty requested name list also succeeds (absent names never
raise) and the returned mapping's key set is exactly the intersection
of the file's top-level keys with the requested names; a `None` or
empty requested sequence is falsy, so no filtering is applied at all. -/
theorem c6_filtering_is_silent_intersection (setIter : List String → List String)
    (hperm : ∀ l, (setIter l).Perm l) (mat : H5File) (sq sc : Bool)
    (d : List (String × PyVal))
    (h : load_h5py_tree setIter mat none sq sc = .ok d) :
    load_h5py_tree setIter mat (some []) sq sc = .ok d ∧
    ∀ ns, ns ≠ [] → ∃ d', load_h5py_tree setIter mat (some ns) sq sc = .ok d' ∧
      ∀ k, k ∈ d'.map Prod.fst ↔ (k ∈ mat.items.map Prod.fst ∧ k ∈ ns) := by
  obtain ⟨ds, hds⟩ := load_h5py_tree_ok_inv setIter mat none sq sc d h
  have hbase := load_h5py_tree_none setIter mat sq sc ds hds
  have hd : d = if sc then simplifyPairs ds else ds := by
    rw [h] at hbase
    exact Except.ok.inj hbase
  have hg := groupToDict_ok_map_fst sq mat.items ds hds
  have hkeys : (if sc then simplifyPairs ds else ds).map Prod.fst = mat.items.map Prod.fst := by
    cases sc <;> simp [simplifyPairs_map_fst, hg]
  constructor
  · rw [load_h5py_tree_some_nil setIter mat sq sc ds hds, hd]
  · intro ns hns
    obtain ⟨n, ns', rfl⟩ : ∃ n ns', ns = n :: ns' := by
      cases ns with
      | nil => exact absurd rfl hns
      | cons a t => exact ⟨a, t, rfl⟩
    refine ⟨_, load_h5py_tree_some setIter mat sq sc ds n ns' hds, ?_⟩
    intro k
    rw [← hkeys]
    constructor
    · intro hk
      simp only [List.map_map, List.mem_map] at hk
      obtain ⟨v, hv, rfl⟩ := hk
      have hv' : v ∈ ((if sc then simplifyPairs ds else ds).map Prod.fst).filter
          (fun k => (n :: ns').contains k) := (hperm _).mem_iff.mp hv
      rw [List.mem_filter] at hv'
      exact ⟨hv'.1, List.elem_iff.mp hv'.2⟩
    · intro ⟨hk1, hk2⟩
      simp only [List.map_map, List.mem_map]
      refine ⟨k, ?_, rfl⟩
      refine (hperm _).mem_iff.mpr ?_
      rw [List.mem_filter]
      exact ⟨hk1, List.elem_iff.mpr hk2⟩

/-- Claim C6, witness: filtering a two-variable file by `["a", "zz"]`
succeeds and keeps exactly `a` (the absent `zz` is silently dropped). -/
theorem c6_witness :
    ∃ d', load_h5py_tree id
        ⟨[("a", .dataset false [] [.scalar 1]), ("b", .dataset false [] [.scalar 2])]⟩
        (some ["a", "zz"]) true true = .ok d' ∧
      ∀ k, k ∈ d'.map Prod.fst ↔
        (k ∈ (H5File.mk [("a", H5Obj.dataset false [] [.scalar 1]),
              ("b", H5Obj.dataset false [] [.scalar 2])]).items.map Prod.fst ∧
         k ∈ ["a", "zz"]) :=
  ((c6_filtering_is_silent_intersection id (fun l => List.Perm.refl l)
      ⟨[("a", .dataset false [] [.scalar 1]), ("b", .dataset false [] [.scalar 2])]⟩
      true true [("a", .scalar 1), ("b", .scalar 2)]
      (by simp [load_h5py_tree, groupToDict, matToDict, datasetToVal, simplifyPairs,
                simplify, bind, Except.bind])).2
    ["a", "zz"] (by decide))

/-! ### Claim C9 — key listing order -/

/-- Claim C9, amended: `get_keys` returns the loaded mapping's keys in
the mapping's internal order; for the hierarchical adapter *without* a
filter this is the underlying store's iteration order, but when a
variable-name filter is applied the keys come out in the iteration
order of the Python set `set(data.keys()) & set(variable_names)` —
unspecified hash order, not necessarily the store order. -/
theorem c9_get_keys_order (setIter : List String → List String) (f : MatFile) (mat : H5File)
    (hfound : f.found = true) (hopen : f.h5open = .ok mat) :
    (∀ d, load_h5py_tree setIter mat none true true = .ok d →
        MatData.init setIter f none none = .ok ⟨f.path, d⟩ ∧
        MatData.get_keys ⟨f.path, d⟩ = mat.items.map Prod.fst) ∧
    (∀ n ns d, load_h5py_tree setIter mat (some (n :: ns)) true true = .ok d →
        MatData.init setIter f (some (n :: ns)) none = .ok ⟨f.path, d⟩ ∧
        MatData.get_keys ⟨f.path, d⟩ =
          setIter ((mat.items.map Prod.fst).filter fun k => (n :: ns).contains k)) := by
  constructor
  · intro d h
    obtain ⟨ds, hds⟩ := load_h5py_tree_ok_inv setIter mat none true true d h
    have hbase := load_h5py_tree_none setIter mat true true ds hds
    have hd : d = simplifyPairs ds := by
      rw [h] at hbase
      simpa using Except.ok.inj hbase
    constructor
    · simp [MatData.init, hfound, load_h5py, hopen, squeezeMeDefault, simplifyCellsDefault, h]
    · simp only [MatData.get_keys, hd, simplifyPairs_map_fst]
      exact groupToDict_ok_map_fst true mat.items ds hds
  · intro n ns d h
    obtain ⟨ds, hds⟩ := load_h5py_tree_ok_inv setIter mat (some (n :: ns)) true true d h
    have hsome := load_h5py_tree_some setIter mat true true ds n ns hds
    have hd : d = (setIter (((simplifyPairs ds).map Prod.fst).filter
        fun k => (n :: ns).contains k)).map
          fun v => (v, (dictLookup v (simplifyPairs ds)).getD (.scalar 0)) := by
      rw [h] at hsome
      simpa using Except.ok.inj hsome
    have hkeys : (simplifyPairs ds).map Prod.fst = mat.items.map Prod.fst := by
      rw [simplifyPairs_map_fst]
      exact groupToDict_ok_map_fst true mat.items ds hds
    constructor
    · simp [MatData.init, hfound, load_h5py, hopen, squeezeMeDefault, simplifyCellsDefault, h]
    · simp only [MatData.get_keys, hd]
      rw [map_fst_pairing, hkeys]

/-- Claim C9, counterexample: with a variable-name filter the key order
follows the hash set's iteration order, for which `List.reverse` is an
admissible instance; a two-variable file filtered by both its names can
come back as `["b", "a"]`, not the store order `["a", "b"]`. -/
theorem c9_counterexample :
    ¬ (∀ setIter : List String → List String, (∀ l, (setIter l).Perm l) →
        ∀ (mat : H5File) (n : String) (ns : List String) (d : List (String × PyVal)),
          load_h5py_tree setIter mat (some (n :: ns)) true true = .ok d →
          d.map Prod.fst = (mat.items.map Prod.fst).filter fun k => (n :: ns).contains k) := by
  intro hclaim
  have := hclaim List.reverse (fun l => l.reverse_perm)
      ⟨[("a", .dataset false [] [.scalar 1]), ("b", .dataset false [] [.scalar 2])]⟩
      "a" ["b"] [("b", .scalar 2), ("a", .scalar 1)]
      (by simp [load_h5py_tree, groupToDict, matToDict, datasetToVal, simplifyPairs,
                simplify, dictLookup, bind, Except.bind])
  simp at this

/-- Claim C9, witness: an unfiltered hierarchical load lists keys in the
store's iteration order. -/
theorem c9_witness :
    MatData.init id
        ⟨"f.mat", true, .ok ⟨[("x", .dataset false [] [.scalar 5]),
            ("y", .dataset false [] [.scalar 6])]⟩, fun _ _ _ => .ok []⟩ none none =
      .ok ⟨"f.mat", [("x", .scalar 5), ("y", .scalar 6)]⟩ ∧
    MatData.get_keys ⟨"f.mat", [("x", .scalar 5), ("y", .scalar 6)]⟩ = ["x", "y"] :=
  (c9_get_keys_order id
      ⟨"f.mat", true, .ok ⟨[("x", .dataset false [] [.scalar 5]),
          ("y", .dataset false [] [.scalar 6])]⟩, fun _ _ _ => .ok []⟩
      ⟨[("x", .dataset false [] [.scalar 5]), ("y", .dataset false [] [.scalar 6])]⟩
      rfl rfl).1 [("x", .scalar 5), ("y", .scalar 6)]
      (by simp [load_h5py_tree, groupToDict, matToDict, datasetToVal, simplifyPairs,
                simplify, bind, Except.bind])

/-! ### Claim C7 — existence check precedes any reader -/

/-- Claim C7, confirmed: constructing `MatData` on a path that does not
reference an existing file fails with the "file not found" condition,
whatever the two readers would have returned — the readers are
quantified fields here, and the result does not depend on them, so the
check happens before any reader is invoked. -/
theorem c7_missing_file_fails_before_readers (setIter : List String → List String)
    (path : String) (h5r : Except PyErr H5File)
    (lm : Option (List String) → Bool → Bool → Except PyErr (List (String × PyVal)))
    (names : Option (List String)) (version : Option ℚ) :
    MatData.init setIter ⟨path, false, h5r, lm⟩ names version =
      .error (.fileNotFoundError ("File '" ++ path ++ "' not found")) := rfl

/-! ### Claim C8 — single-variable lookup -/

/-- Claim C8, confirmed: looking up an absent name fails with a
`KeyError` whose message names that variable; looking up a present name
returns exactly the stored value. -/
theorem c8_get_absent_or_identity (m : MatData) (var : String) :
    (dictLookup var m.data = none →
      m.get var = .error (.keyError ("Variable '" ++ var ++ "' not found in data"))) ∧
    (∀ v, dictLookup var m.data = some v → m.get var = .ok v) := by
  constructor
  · intro h
    simp [MatData.get, h]
  · intro v h
    simp [MatData.get, h]

/-! ### Claim C1 — no declared version: fallback and wrapping -/

/-- Claim C1, amended: with no declared version the hierarchical
adapter is attempted first; an `OSError` (format/access failure) falls
back to the legacy adapter, whose own failure is wrapped as the generic
"error loading mat file" condition with the original cause preserved;
but a non-`OSError` failure of the hierarchical adapter propagates
*bare* — only the legacy adapter's failure is wrapped on this path. -/
theorem c1_no_version_fallback (setIter : List String → List String) (f : MatFile)
    (names : Option (List String)) (hfound : f.found = true) :
    (∀ d, load_h5py setIter f names true true = .ok d →
        MatData.init setIter f names none = .ok ⟨f.path, d⟩) ∧
    (∀ e, load_h5py setIter f names true true = .error e → isOSError e = true →
        (∀ d, load_scipy f names true true = .ok d →
            MatData.init setIter f names none = .ok ⟨f.path, d⟩) ∧
        (∀ e2, load_scipy f names true true = .error e2 →
            MatData.init setIter f names none =
              .error (.exception ("Error loading mat file: " ++ errStr e2) (some e2)))) ∧
    (∀ e, load_h5py setIter f names true true = .error e → isOSError e = false →
        MatData.init setIter f names none = .error e) := by
  refine ⟨?_, ?_, ?_⟩
  · intro d h
    simp [MatData.init, hfound, squeezeMeDefault, simplifyCellsDefault, h]
  · intro e he hos
    constructor
    · intro d hd
      simp [MatData.init, hfound, squeezeMeDefault, simplifyCellsDefault, he, hos, hd]
    · intro e2 he2
      simp [MatData.init, hfound, squeezeMeDefault, simplifyCellsDefault, he, hos, he2,
            wrapLoad]
  · intro e he hos
    simp [MatData.init, hfound, squeezeMeDefault, simplifyCellsDefault, he, hos]

/-- Claim C1, counterexample: a file the hierarchical adapter opens but
whose tree holds an unsupported node raises `TypeError`, which is not
an `OSError`; the facade surfaces it bare — not wrapped as the generic
"error loading mat file" condition the claim requires — even though the
legacy reader would have succeeded. -/
theorem c1_counterexample :
    MatData.init id ⟨"a.mat", true,
        .ok ⟨[("bad", .other "<class 'h5py._hl.datatype.Datatype'>")]⟩,
        fun _ _ _ => .ok []⟩ none none =
      .error (.typeError
        "Unsupported MATLAB object type: <class 'h5py._hl.datatype.Datatype'>") ∧
    ∀ msg cause, PyErr.typeError
        "Unsupported MATLAB object type: <class 'h5py._hl.datatype.Datatype'>" ≠
      .exception msg cause := by
  constructor
  · simp [MatData.init, load_h5py, load_h5py_tree, groupToDict, matToDict, isOSError,
          squeezeMeDefault, simplifyCellsDefault, bind, Except.bind]
  · intro msg cause h
    cases h

/-- Claim C1, witness: a non-HDF5 file (h5py raises `OSError`) whose
legacy read also fails surfaces the legacy failure wrapped, cause
preserved. -/
theorem c1_witness :
    MatData.init id ⟨"b.mat", true, .error (.osError "Unable to open file"),
        fun _ _ _ => .error (.typeError "not a mat file")⟩ none none =
      .error (.exception ("Error loading mat file: " ++ errStr (.typeError "not a mat file"))
        (some (.typeError "not a mat file"))) :=
  ((c1_no_version_fallback id ⟨"b.mat", true, .error (.osError "Unable to open file"),
        fun _ _ _ => .error (.typeError "not a mat file")⟩ none rfl).2.1
      (.osError "Unable to open file") rfl rfl).2 (.typeError "not a mat file") rfl

/-! ### Claim C2 — declared version dispatch -/

/-- Claim C2, amended: a declared *non-zero* version dispatches by the
7.2 threshold — legacy at `v ≤ 7.2`, hierarchical at `v > 7.2` — with
no fallback (the result does not depend on the other reader at all),
and any failure of the chosen adapter is wrapped with the original
cause preserved.  Version `0` is excluded: `if version:` is Python
truthiness, so a declared `0` takes the no-version trial path instead. -/
theorem c2_declared_version_dispatch (setIter : List String → List String) (f : MatFile)
    (names : Option (List String)) (v : ℚ) (hfound : f.found = true) (hv : v ≠ 0) :
    (v ≤ 7.2 →
      (∀ d, load_scipy f names true true = .ok d →
          MatData.init setIter f names (some v) = .ok ⟨f.path, d⟩) ∧
      (∀ e, load_scipy f names true true = .error e →
          MatData.init setIter f names (some v) =
            .error (.exception ("Error loading mat file: " ++ errStr e) (some e))) ∧
      (∀ g : MatFile, g.path = f.path → g.found = true → g.loadmat = f.loadmat →
          MatData.init setIter g names (some v) = MatData.init setIter f names (some v))) ∧
    (7.2 < v →
      (∀ d, load_h5py setIter f names true true = .ok d →
          MatData.init setIter f names (some v) = .ok ⟨f.path, d⟩) ∧
      (∀ e, load_h5py setIter f names true true = .error e →
          MatData.init setIter f names (some v) =
            .error (.exception ("Error loading mat file: " ++ errStr e) (some e))) ∧
      (∀ g : MatFile, g.path = f.path → g.found = true → g.h5open = f.h5open →
          MatData.init setIter g names (some v) = MatData.init setIter f names (some v))) := by
  constructor
  · intro hle
    refine ⟨?_, ?_, ?_⟩
    · intro d h
      simp [MatData.init, hfound, hv, hle, squeezeMeDefault, simplifyCellsDefault, h]
    · intro e h
      simp [MatData.init, hfound, hv, hle, squeezeMeDefault, simplifyCellsDefault, h,
            wrapLoad]
    · intro g hp hg hl
      simp [MatData.init, hfound, hg, hv, hle, squeezeMeDefault, simplifyCellsDefault,
            load_scipy, hl, hp]
  · intro hlt
    have hnle : ¬(v ≤ 7.2) := not_le.mpr hlt
    refine ⟨?_, ?_, ?_⟩
    · intro d h
      simp [MatData.init, hfound, hv, hnle, squeezeMeDefault, simplifyCellsDefault, h]
    · intro e h
      simp [MatData.init, hfound, hv, hnle, squeezeMeDefault, simplifyCellsDefault, h,
            wrapLoad]
    · intro g hp hg hl
      simp [MatData.init, hfound, hg, hv, hnle, squeezeMeDefault, simplifyCellsDefault,
            load_h5py, hl, hp]

/-- Claim C2, counterexample: version `0` is a declared numeric version
and `0 ≤ 7.2`, so the claim requires the legacy adapter with its
failure wrapped; the code instead treats `0` as undeclared (Python
falsiness), tries the hierarchical adapter, and succeeds even though
the legacy reader fails. -/
theorem c2_counterexample :
    MatData.init id ⟨"a.mat", true, .ok ⟨[]⟩, fun _ _ _ => .error (.osError "scipy failed")⟩
        none (some 0) = .ok ⟨"a.mat", []⟩ ∧
    (Except.ok (⟨"a.mat", []⟩ : MatData) ≠
      Except.error (PyErr.exception
        ("Error loading mat file: " ++ errStr (PyErr.osError "scipy failed"))
        (some (PyErr.osError "scipy failed")))) ∧
    (0 : ℚ) ≤ 7.2 := by
  refine ⟨?_, ?_, by norm_num⟩
  · simp [MatData.init, load_h5py, load_h5py_tree, groupToDict, simplifyPairs,
          squeezeMeDefault, simplifyCellsDefault, bind, Except.bind]
  · intro h
    cases h

/-- Claim C2, witness: declared version 4 uses the legacy adapter and
returns its data. -/
theorem c2_witness :
    MatData.init id ⟨"c.mat", true, .ok ⟨[]⟩, fun _ _ _ => .ok [("z", .scalar 1)]⟩
        none (some 4) = .ok ⟨"c.mat", [("z", .scalar 1)]⟩ :=
  (((c2_declared_version_dispatch id
      ⟨"c.mat", true, .ok ⟨[]⟩, fun _ _ _ => .ok [("z", .scalar 1)]⟩ none 4 rfl
      (by norm_num)).1 (by norm_num)).1 [("z", .scalar 1)] rfl)

/-! ### Claim C10 — adapters invoked with defaults enabled -/

/-- Claim C10, confirmed: the facade's adapter calls pass only the path
and the variable-name filter, so both flags take their default enabled
values — `__init__` is extensionally the dispatch with squeeze and
cell-simplification explicitly `true` at each call, and the facade's
signature offers no way to disable them.  Consequently (second
conjunct) every top-level value a facade-style hierarchical load
returns is squeezed and simplified: no value is an object-kind array
(cells became lists), and any array value kept a non-empty shape with
no size-1 dimension. -/
theorem c10_adapters_called_with_defaults (setIter : List String → List String)
    (f : MatFile) (names : Option (List String)) (version : Option ℚ) :
    MatData.init setIter f names version = MatDataInitAllDefaultsOn setIter f names version ∧
    (∀ (mat : H5File) (vn : Option (List String)) (dd : List (String × PyVal)),
      topDatasetsScalar mat →
      load_h5py_tree setIter mat vn true true = .ok dd →
      ∀ p ∈ dd, (∀ sh ys, p.2 ≠ .arr true sh ys) ∧
        (∀ kk sh ys, p.2 = .arr kk sh ys → 1 ∉ sh ∧ sh ≠ [])) := by
  constructor
  · rfl
  · intro mat vn dd hscalar hload p hp
    obtain ⟨ds, hds⟩ := load_h5py_tree_ok_inv setIter mat vn true true dd hload
    have hbasegood : ∀ q ∈ simplifyPairs ds,
        (∀ sh ys, q.2 ≠ PyVal.arr true sh ys) ∧
        (∀ kk sh ys, q.2 = PyVal.arr kk sh ys → 1 ∉ sh ∧ sh ≠ []) := by
      intro q hq
      rw [simplifyPairs_eq_map] at hq
      obtain ⟨q0, hq0, rfl⟩ := List.mem_map.mp hq
      exact simplify_top_good q0.2 (groupToDict_values_good mat.items ds hscalar hds q0 hq0)
    rcases vn with - | ⟨- | ⟨n, ns⟩⟩
    · have hb := load_h5py_tree_none setIter mat true true ds hds
      rw [hload] at hb
      have hdd : dd = simplifyPairs ds := by simpa using Except.ok.inj hb
      subst hdd
      exact hbasegood p hp
    · have hb := load_h5py_tree_some_nil setIter mat true true ds hds
      rw [hload] at hb
      have hdd : dd = simplifyPairs ds := by simpa using Except.ok.inj hb
      subst hdd
      exact hbasegood p hp
    · have hb := load_h5py_tree_some setIter mat true true ds n ns hds
      rw [hload] at hb
      have hdd : dd = (setIter (((simplifyPairs ds).map Prod.fst).filter
          fun k => (n :: ns).contains k)).map
            fun v => (v, (dictLookup v (simplifyPairs ds)).getD (.scalar 0)) := by
        simpa using Except.ok.inj hb
      subst hdd
      obtain ⟨v, -, rfl⟩ := List.mem_map.mp hp
      cases hlk : dictLookup v (simplifyPairs ds) with
      | some w =>
          obtain ⟨q, hq, hqv⟩ := dictLookup_mem_values v _ w hlk
          have hw := hbasegood q hq
          rw [hqv] at hw
          constructor
          · intro sh ys heq
            exact hw.1 sh ys (by simpa using heq)
          · intro kk sh ys heq
            exact hw.2 kk sh ys (by simpa using heq)
      | none =>
          constructor
          · intro sh ys heq
            simp at heq
          · intro kk sh ys heq
            simp at heq

end Matdata
